import Mathlib

/-!
Verification of the angle/trigonometry core of the interactive-trig-circle
repository.  JavaScript numbers are modelled as real numbers; the JS `%`
remainder (sign of the dividend) is modelled by `jsMod`.  Fallible
operations return `Option`/`Except`, mirroring `null` returns and thrown
errors in the source.
-/

namespace TrigCircle

/-- Truncation toward zero, as used by the JS `%` operator. -/
noncomputable def jsTrunc (x : ℝ) : ℤ :=
if 0 ≤ x then ⌊x⌋ else ⌈x⌉

/-- JS remainder: `x % m = x - m * trunc (x / m)`; the result carries the
sign of the dividend `x`. -/
noncomputable def jsMod (x m : ℝ) : ℝ :=
x - m * (jsTrunc (x / m) : ℝ)

theorem jsMod_eq_mul (x m : ℝ) (hm : m ≠ 0) :
    jsMod x m = m * (x / m - (jsTrunc (x / m) : ℝ)) := by
  unfold jsMod
  rw [mul_sub, mul_div_cancel₀ _ hm]

theorem jsMod_bounds (x m : ℝ) (hm : 0 < m) :
    -m < jsMod x m ∧ jsMod x m < m := by
  rw [jsMod_eq_mul x m hm.ne']
  unfold jsTrunc
  by_cases h : 0 ≤ x / m
  · rw [if_pos h]
    constructor
    · have h1 : (0:ℝ) ≤ x / m - ⌊x / m⌋ := by
        have := Int.floor_le (x / m); linarith
      nlinarith
    · have h2 : x / m - ⌊x / m⌋ < 1 := by
        have := Int.lt_floor_add_one (x / m); linarith
      have h1 : (0:ℝ) ≤ x / m - ⌊x / m⌋ := by
        have := Int.floor_le (x / m); linarith
      nlinarith
  · rw [if_neg h]
    constructor
    · have h2 : x / m - ⌈x / m⌉ > -1 := by
        have := Int.ceil_lt_add_one (x / m); linarith
      nlinarith
    · have h1 : x / m - ⌈x / m⌉ ≤ 0 := by
        have := Int.le_ceil (x / m); linarith
      nlinarith

theorem jsMod_sub_eq (x m : ℝ) : x - jsMod x m = m * (jsTrunc (x / m) : ℝ) := by
  unfold jsMod; ring

theorem jsMod_self (m : ℝ) (hm : m ≠ 0) : jsMod m m = 0 := by
  unfold jsMod jsTrunc
  rw [div_self hm]
  norm_num

theorem jsMod_eq_self (x m : ℝ) (h0 : 0 ≤ x) (hx : x < m) : jsMod x m = x := by
  have hm : 0 < m := lt_of_le_of_lt h0 hx
  have hq0 : 0 ≤ x / m := div_nonneg h0 hm.le
  have hq1 : x / m < 1 := (div_lt_one hm).2 hx
  unfold jsMod jsTrunc
  rw [if_pos hq0, Int.floor_eq_zero_iff.2 ⟨hq0, hq1⟩]
  norm_num

/-- `AngleUnit` from `Angle.ts`: `'radians' | 'degrees'`. -/
inductive AngleUnit
| radians
| degrees
deriving DecidableEq, Repr

/-- Constant `DEGREES_TO_RADIANS = PI / 180` from `Angle.ts`. -/
noncomputable def DEGREES_TO_RADIANS : ℝ := Real.pi / 180

/-- Constant `RADIANS_TO_DEGREES = 180 / PI` from `Angle.ts`. -/
noncomputable def RADIANS_TO_DEGREES : ℝ := 180 / Real.pi

/-- Constant `ANGLE_TOLERANCE = 0.0001` from `Angle.ts`. -/
def ANGLE_TOLERANCE : ℝ := 0.0001

/-- The `Angle` class from `Angle.ts`: a numeric magnitude plus a unit tag.
The finiteness check of the constructor is vacuous in the real-number
model, where every value is finite. -/
structure Angle where
  value : ℝ
  unit : AngleUnit

/-- `Angle.toRadians()`. -/
noncomputable def Angle.toRadians (a : Angle) : ℝ :=
match a.unit with
| .radians => a.value
| .degrees => a.value * DEGREES_TO_RADIANS

/-- `Angle.toDegrees()`. -/
noncomputable def Angle.toDegrees (a : Angle) : ℝ :=
match a.unit with
| .degrees => a.value
| .radians => a.value * RADIANS_TO_DEGREES

/-- `Angle.normalize()`: JS modulo by the full turn with a negative fix-up. -/
noncomputable def Angle.normalize (a : Angle) : Angle :=
match a.unit with
| .radians =>
    let n := jsMod a.value (2 * Real.pi)
    ⟨if n < 0 then n + 2 * Real.pi else n, .radians⟩
| .degrees =>
    let n := jsMod a.value 360
    ⟨if n < 0 then n + 360 else n, .degrees⟩

/-- `Angle.equals(other)`: radian measures within `ANGLE_TOLERANCE`. -/
noncomputable def Angle.equals (a b : Angle) : Prop :=
|a.toRadians - b.toRadians| < ANGLE_TOLERANCE

/-- `Angle.fromRadians`. -/
def Angle.fromRadians (radians : ℝ) : Angle := ⟨radians, .radians⟩

/-- `Angle.fromDegrees`. -/
def Angle.fromDegrees (degrees : ℝ) : Angle := ⟨degrees, .degrees⟩

/-- `Angle.ZERO`. -/
def Angle.ZERO : Angle := ⟨0, .radians⟩

/-- `Angle.PI_OVER_6`. -/
noncomputable def Angle.PI_OVER_6 : Angle := ⟨Real.pi / 6, .radians⟩

/-- `Angle.PI_OVER_4`. -/
noncomputable def Angle.PI_OVER_4 : Angle := ⟨Real.pi / 4, .radians⟩

/-- `Angle.PI_OVER_3`. -/
noncomputable def Angle.PI_OVER_3 : Angle := ⟨Real.pi / 3, .radians⟩

/-- `Angle.PI_OVER_2`. -/
noncomputable def Angle.PI_OVER_2 : Angle := ⟨Real.pi / 2, .radians⟩

/-- `Angle.PI` (the constant angle, π radians). -/
noncomputable def Angle.PI_ANGLE : Angle := ⟨Real.pi, .radians⟩

/-- `Angle.THREE_PI_OVER_2`. -/
noncomputable def Angle.THREE_PI_OVER_2 : Angle := ⟨3 * Real.pi / 2, .radians⟩

/-- `Angle.TWO_PI` (the constant angle, 2π radians). -/
noncomputable def Angle.TWO_PI_ANGLE : Angle := ⟨2 * Real.pi, .radians⟩

/-- The full turn for a unit: 2π radians or 360 degrees. -/
noncomputable def fullTurn : AngleUnit → ℝ
| .radians => 2 * Real.pi
| .degrees => 360

theorem normalize_unit (a : Angle) : a.normalize.unit = a.unit := by
  unfold Angle.normalize
  cases a.unit <;> rfl

theorem normalize_range (a : Angle) :
    0 ≤ a.normalize.value ∧ a.normalize.value < fullTurn a.unit := by
  have hpi : (0:ℝ) < 2 * Real.pi := by positivity
  unfold Angle.normalize fullTurn
  cases a.unit
  · simp only
    obtain ⟨hlo, hhi⟩ := jsMod_bounds a.value (2 * Real.pi) hpi
    by_cases h : jsMod a.value (2 * Real.pi) < 0
    · rw [if_pos h]; constructor <;> linarith
    · rw [if_neg h]; constructor <;> linarith
  · simp only
    obtain ⟨hlo, hhi⟩ := jsMod_bounds a.value 360 (by norm_num)
    by_cases h : jsMod a.value 360 < 0
    · rw [if_pos h]; constructor <;> linarith
    · rw [if_neg h]; constructor <;> linarith

theorem normalize_value_sub (a : Angle) :
    ∃ k : ℤ, a.value - a.normalize.value = fullTurn a.unit * (k : ℝ) := by
  unfold Angle.normalize fullTurn
  cases a.unit
  · simp only
    by_cases h : jsMod a.value (2 * Real.pi) < 0
    · rw [if_pos h]
      refine ⟨jsTrunc (a.value / (2 * Real.pi)) - 1, ?_⟩
      have := jsMod_sub_eq a.value (2 * Real.pi)
      push_cast
      linarith
    · rw [if_neg h]
      exact ⟨jsTrunc (a.value / (2 * Real.pi)), jsMod_sub_eq a.value (2 * Real.pi)⟩
  · simp only
    by_cases h : jsMod a.value 360 < 0
    · rw [if_pos h]
      refine ⟨jsTrunc (a.value / 360) - 1, ?_⟩
      have := jsMod_sub_eq a.value 360
      push_cast
      linarith
    · rw [if_neg h]
      exact ⟨jsTrunc (a.value / 360), jsMod_sub_eq a.value 360⟩

theorem normalize_toRadians_sub (a : Angle) :
    ∃ k : ℤ, a.toRadians - a.normalize.toRadians = 2 * Real.pi * (k : ℝ) := by
  obtain ⟨k, hk⟩ := normalize_value_sub a
  have hu := normalize_unit a
  refine ⟨k, ?_⟩
  unfold Angle.toRadians
  rw [hu]
  cases h : a.unit
  · rw [h] at hk
    simpa [fullTurn] using hk
  · rw [h] at hk
    simp only [fullTurn] at hk
    simp only
    unfold DEGREES_TO_RADIANS
    rw [← sub_mul, hk]
    ring

theorem normalize_of_mem (a : Angle) (h0 : 0 ≤ a.value)
    (h1 : a.value < fullTurn a.unit) : a.normalize = a := by
  unfold Angle.normalize
  cases h : a.unit
  · rw [h] at h1
    simp only [fullTurn] at h1
    have := jsMod_eq_self a.value (2 * Real.pi) h0 h1
    simp only [this, if_neg (not_lt.2 h0)]
    cases a
    simp_all
  · rw [h] at h1
    simp only [fullTurn] at h1
    have := jsMod_eq_self a.value 360 h0 h1
    simp only [this, if_neg (not_lt.2 h0)]
    cases a
    simp_all

theorem normalize_full_turn_radians :
    (Angle.mk (2 * Real.pi) .radians).normalize = Angle.mk 0 .radians := by
  have hpi : (2 * Real.pi) ≠ 0 := by positivity
  unfold Angle.normalize
  simp [jsMod_self _ hpi]

theorem normalize_full_turn_degrees :
    (Angle.mk 360 .degrees).normalize = Angle.mk 0 .degrees := by
  unfold Angle.normalize
  simp [jsMod_self (360:ℝ) (by norm_num)]

/-- Constant `ZERO_TOLERANCE = 1e-10` from `Trigonometry.ts`. -/
def ZERO_TOLERANCE : ℝ := 1e-10

/-- The `TrigonometricValues` class from `Trigonometry.ts`: the constructor
caches `sin` and `cos` of the radian measure once; the remaining functions
are derived from the two cached values. -/
structure TrigonometricValues where
  angle : Angle
  sinValue : ℝ
  cosValue : ℝ

/-- The `TrigonometricValues` constructor. -/
noncomputable def TrigonometricValues.ofAngle (a : Angle) : TrigonometricValues :=
⟨a, Real.sin a.toRadians, Real.cos a.toRadians⟩

/-- `TrigonometricValues.sin()`. -/
def TrigonometricValues.sin (t : TrigonometricValues) : ℝ := t.sinValue

/-- `TrigonometricValues.cos()`. -/
def TrigonometricValues.cos (t : TrigonometricValues) : ℝ := t.cosValue

/-- `TrigonometricValues.tan()`: `null` when `|cos| < ZERO_TOLERANCE`. -/
noncomputable def TrigonometricValues.tan (t : TrigonometricValues) : Option ℝ :=
if |t.cosValue| < ZERO_TOLERANCE then none else some (t.sinValue / t.cosValue)

/-- `TrigonometricValues.cot()`: `null` when `|sin| < ZERO_TOLERANCE`. -/
noncomputable def TrigonometricValues.cot (t : TrigonometricValues) : Option ℝ :=
if |t.sinValue| < ZERO_TOLERANCE then none else some (t.cosValue / t.sinValue)

/-- `TrigonometricValues.sec()`: `null` when `|cos| < ZERO_TOLERANCE`. -/
noncomputable def TrigonometricValues.sec (t : TrigonometricValues) : Option ℝ :=
if |t.cosValue| < ZERO_TOLERANCE then none else some (1 / t.cosValue)

/-- `TrigonometricValues.csc()`: `null` when `|sin| < ZERO_TOLERANCE`. -/
noncomputable def TrigonometricValues.csc (t : TrigonometricValues) : Option ℝ :=
if |t.sinValue| < ZERO_TOLERANCE then none else some (1 / t.sinValue)

/-- `sin` of the radian measure is unchanged by `Angle.normalize`. -/
theorem sin_normalize (a : Angle) :
    Real.sin a.normalize.toRadians = Real.sin a.toRadians := by
  obtain ⟨k, hk⟩ := normalize_toRadians_sub a
  have : a.toRadians = a.normalize.toRadians + (k : ℝ) * (2 * Real.pi) := by
    linarith
  rw [this, Real.sin_add_int_mul_two_pi]

/-- `cos` of the radian measure is unchanged by `Angle.normalize`. -/
theorem cos_normalize (a : Angle) :
    Real.cos a.normalize.toRadians = Real.cos a.toRadians := by
  obtain ⟨k, hk⟩ := normalize_toRadians_sub a
  have : a.toRadians = a.normalize.toRadians + (k : ℝ) * (2 * Real.pi) := by
    linarith
  rw [this, Real.cos_add_int_mul_two_pi]

/-- `arcsin` of `InverseTrigonometricValues` (`InverseTrig.ts`): domain
`[-1, 1]`, all solutions in `[0, 2π)`. -/
noncomputable def InverseTrigonometricValues.arcsin (v : ℝ) :
    Except String (List Angle) :=
if v < -1 ∨ v > 1 then
  .error "arcsin domain error: value must be in [-1, 1]"
else
  let principal := Real.arcsin v
  let principalAngle := Angle.fromRadians principal
  let solutions : List Angle :=
    if 0 ≤ principal then
      principalAngle ::
        (if 0 < principal ∧ principal < Real.pi / 2 then
          [Angle.fromRadians (Real.pi - principal)]
        else [])
    else
      [Angle.fromRadians (2 * Real.pi + principal),
       Angle.fromRadians (Real.pi - principal)]
  .ok (solutions.map Angle.normalize)

/-- `arccos` of `InverseTrigonometricValues`. -/
noncomputable def InverseTrigonometricValues.arccos (v : ℝ) :
    Except String (List Angle) :=
if v < -1 ∨ v > 1 then
  .error "arccos domain error: value must be in [-1, 1]"
else
  let principal := Real.arccos v
  let principalAngle := Angle.fromRadians principal
  let solutions : List Angle :=
    principalAngle ::
      (if 0 < principal ∧ principal < Real.pi then
        [Angle.fromRadians (2 * Real.pi - principal)]
      else [])
  .ok (solutions.map Angle.normalize)

/-- `arctan` of `InverseTrigonometricValues`: single normalized principal
solution. -/
noncomputable def InverseTrigonometricValues.arctan (v : ℝ) : Angle :=
(Angle.fromRadians (Real.arctan v)).normalize

/-- `arcsec` of `InverseTrigonometricValues`: domain `|v| ≥ 1`, computed via
`acos (1/v)` with the arccos multi-solution logic. -/
noncomputable def InverseTrigonometricValues.arcsec (v : ℝ) :
    Except String (List Angle) :=
if v > -1 ∧ v < 1 then
  .error "arcsec domain error: value must be in (-inf, -1] or [1, inf)"
else
  let cosValue := 1 / v
  let principal := Real.arccos cosValue
  let principalAngle := Angle.fromRadians principal
  let solutions : List Angle :=
    principalAngle ::
      (if 0 < principal ∧ principal < Real.pi then
        [Angle.fromRadians (2 * Real.pi - principal)]
      else [])
  .ok (solutions.map Angle.normalize)

/-- `arccsc` of `InverseTrigonometricValues`: domain `|v| ≥ 1`, computed via
`asin (1/v)` with the arcsin multi-solution logic. -/
noncomputable def InverseTrigonometricValues.arccsc (v : ℝ) :
    Except String (List Angle) :=
if v > -1 ∧ v < 1 then
  .error "arccsc domain error: value must be in (-inf, -1] or [1, inf)"
else
  let sinValue := 1 / v
  let principal := Real.arcsin sinValue
  let principalAngle := Angle.fromRadians principal
  let solutions : List Angle :=
    if 0 ≤ principal then
      principalAngle ::
        (if 0 < principal ∧ principal < Real.pi / 2 then
          [Angle.fromRadians (Real.pi - principal)]
        else [])
    else
      [Angle.fromRadians (2 * Real.pi + principal),
       Angle.fromRadians (Real.pi - principal)]
  .ok (solutions.map Angle.normalize)

/-- `arccot` of `InverseTrigonometricValues`: single solution in `(0, π)`,
special-cased to `Angle.PI_OVER_2` when `|v| < ZERO_TOLERANCE`. -/
noncomputable def InverseTrigonometricValues.arccot (v : ℝ) : Angle :=
if |v| < ZERO_TOLERANCE then
  Angle.PI_OVER_2
else if v > 0 then
  (Angle.fromRadians (Real.arctan (1 / v))).normalize
else
  (Angle.fromRadians (Real.arctan (1 / v) + Real.pi)).normalize

/-- Whitespace, as consumed by `trim` and the `\s` regex class (modelled
for the ASCII whitespace characters). -/
def isWs (c : Char) : Bool := c.isWhitespace

/-- `input.trim()` on the character list. -/
def jsTrim (l : List Char) : List Char :=
((l.dropWhile isWs).reverse.dropWhile isWs).reverse

/-- Numeric value of a digit string (most significant first). -/
def digitsToNat (l : List Char) : ℕ :=
l.foldl (fun n c => 10 * n + (c.toNat - '0'.toNat)) 0

/-- A decimal literal matched by `-?\d+(?:\.\d+)?`: sign, integer part,
fractional digits and their count.  Kept syntactic (over `ℕ`/`Bool`) so the
parser is fully decidable; `DecLit.toReal` gives the `parseFloat` value. -/
structure DecLit where
  neg : Bool
  ip : ℕ
  fp : ℕ
  fpLen : ℕ
deriving DecidableEq, Repr

/-- Exact `parseFloat` value of a matched decimal literal. -/
noncomputable def DecLit.toReal (d : DecLit) : ℝ :=
(if d.neg then -1 else 1) * ((d.ip : ℝ) + (d.fp : ℝ) / 10 ^ d.fpLen)

/-- The literal is the number zero exactly when all its digits are zero. -/
def DecLit.isZero (d : DecLit) : Bool := d.ip = 0 && d.fp = 0

/-- Match the regex fragment `\d+(?:\.\d+)?` at the head of the list,
returning the literal and the unconsumed rest. -/
def parseNumber (l : List Char) : Option (DecLit × List Char) :=
let (ip, r) := l.span (fun c => c.isDigit)
if ip.isEmpty then none
else
  match r with
  | '.' :: r2 =>
      let (fp, r3) := r2.span (fun c => c.isDigit)
      if fp.isEmpty then none
      else some (⟨false, digitsToNat ip, digitsToNat fp, fp.length⟩, r3)
  | _ => some (⟨false, digitsToNat ip, 0, 0⟩, r)

/-- Match the regex fragment `-?\d+(?:\.\d+)?` at the head of the list. -/
def parseSigned (l : List Char) : Option (DecLit × List Char) :=
match l with
| '-' :: r => (parseNumber r).map (fun p => (⟨true, p.1.ip, p.1.fp, p.1.fpLen⟩, p.2))
| _ => parseNumber l

/-- Match the case-insensitive π token `(pi|π|PI)` of the π-fraction regex. -/
def matchPiToken : List Char → Option (List Char)
| 'π' :: r => some r
| c1 :: c2 :: r =>
    if (c1 = 'p' ∨ c1 = 'P') ∧ (c2 = 'i' ∨ c2 = 'I') then some r else none
| _ => none

/-- Full match of `^(pi|π|PI)\s*\/\s*(\d+(?:\.\d+)?)$`, returning the
denominator. -/
def parsePiFraction (l : List Char) : Option DecLit :=
match matchPiToken l with
| none => none
| some r =>
    match r.dropWhile isWs with
    | '/' :: r2 =>
        match parseNumber (r2.dropWhile isWs) with
        | some (q, []) => some q
        | _ => none
    | _ => none

/-- The unit suffix group `(deg|degrees?|°|rad|radians?)` (case-insensitive)
followed by the unit classification of `parseAngleInput`: a suffix starting
with `deg` or equal to `°` is degrees, one starting with `rad` is radians. -/
def unitOfSuffix (l : List Char) : Option AngleUnit :=
let low := l.map Char.toLower
if low = ['d', 'e', 'g'] ∨ low = ['d', 'e', 'g', 'r', 'e', 'e'] ∨
    low = ['d', 'e', 'g', 'r', 'e', 'e', 's'] ∨ low = ['°'] then
  some AngleUnit.degrees
else if low = ['r', 'a', 'd'] ∨ low = ['r', 'a', 'd', 'i', 'a', 'n'] ∨
    low = ['r', 'a', 'd', 'i', 'a', 'n', 's'] then
  some AngleUnit.radians
else none

/-- Full match of `^(-?\d+(?:\.\d+)?)\s*(deg|degrees?|°|rad|radians?)$`. -/
def parseWithUnit (l : List Char) : Option (DecLit × AngleUnit) :=
match parseSigned l with
| none => none
| some (v, rest) =>
    match unitOfSuffix (rest.dropWhile isWs) with
    | some u => some (v, u)
    | none => none

/-- Full match of `^(-?\d+(?:\.\d+)?)$`. -/
def parsePlainNumber (l : List Char) : Option DecLit :=
match parseSigned l with
| some (v, []) => some v
| _ => none

/-- Syntactic outcome of `parseAngleInput`, before units and π are given
their real-number meaning. -/
inductive ParseOutcome
| emptyInput
| piFraction (den : DecLit)
| divideByZero
| withUnit (value : DecLit) (unit : AngleUnit)
| plainNumber (value : DecLit)
| invalidFormat
deriving DecidableEq, Repr

/-- The decision structure of `parseAngleInput` from `angleParser.ts`:
trim; report empty input; then try the π-fraction, unit-suffixed and plain
grammars in this order.  The `Number.isFinite` re-checks of the source are
vacuous here because a `\d+(\.\d+)?` literal is always finite in the exact
model. -/
def parseAngleCore (input : String) : ParseOutcome :=
let trimmed := jsTrim input.data
if trimmed = [] then .emptyInput
else
  match parsePiFraction trimmed with
  | some den => if den.isZero then .divideByZero else .piFraction den
  | none =>
      match parseWithUnit trimmed with
      | some (v, u) => .withUnit v u
      | none =>
          match parsePlainNumber trimmed with
          | some v => .plainNumber v
          | none => .invalidFormat

/-- `ParseAngleResult` from `angleParser.ts`: angle-or-error pair. -/
structure ParseAngleResult where
  angle : Option Angle
  error : Option String

/-- `parseAngleInput(input, currentUnit)` from `angleParser.ts`. -/
noncomputable def parseAngleInput (input : String) (currentUnit : AngleUnit) :
    ParseAngleResult :=
match parseAngleCore input with
| .emptyInput => ⟨none, some "Angle input cannot be empty"⟩
| .piFraction den => ⟨some ⟨Real.pi / den.toReal, .radians⟩, none⟩
| .divideByZero => ⟨none, some "Cannot divide by zero"⟩
| .withUnit v u => ⟨some ⟨v.toReal, u⟩, none⟩
| .plainNumber v => ⟨some ⟨v.toReal, currentUnit⟩, none⟩
| .invalidFormat =>
    ⟨none, some ("Invalid angle format: \"" ++ input ++
      "\". Expected formats: \"30\", \"30deg\", \"π/6\", \"1.2rad\"")⟩

/-- `ActiveView` from `AppState.ts`. -/
inductive ActiveView
| unitCircle
| graphs
| table
| formulas
deriving DecidableEq, Repr

/-- `DifficultyLevel` from `AppState.ts`. -/
inductive DifficultyLevel
| highSchool
| college
| graduate
deriving DecidableEq, Repr

/-- `FormulaViewMode` from `AppState.ts`. -/
inductive FormulaViewMode
| single
| multiple
| hybrid
deriving DecidableEq, Repr

/-- The state fields of the `AppStore` from `store.ts` (the JS `Set` of
enabled formula ids is modelled as a `Finset`). -/
structure AppStore where
  currentAngle : Angle
  angleUnit : AngleUnit
  activeView : ActiveView
  selectedFormula : Option String
  difficultyLevel : DifficultyLevel
  formulaViewMode : FormulaViewMode
  enabledFormulas : Finset String

/-- `initialState` from `store.ts`. -/
def initialState : AppStore :=
⟨Angle.ZERO, .radians, .unitCircle, none, .highSchool, .hybrid, ∅⟩

/-- `setAngle`: stores the normalized angle, never the raw input. -/
noncomputable def AppStore.setAngle (s : AppStore) (angle : Angle) : AppStore :=
{ s with currentAngle := angle.normalize }

/-- `setAngleUnit`: no-op when the unit is unchanged, otherwise re-wraps the
current radian measure in the new unit and normalizes. -/
noncomputable def AppStore.setAngleUnit (s : AppStore) (unit : AngleUnit) :
    AppStore :=
if s.angleUnit = unit then s
else
  let currentRadians := s.currentAngle.toRadians
  let newAngle : Angle :=
    match unit with
    | .radians => ⟨currentRadians, .radians⟩
    | .degrees => ⟨currentRadians * (180 / Real.pi), .degrees⟩
  { s with angleUnit := unit, currentAngle := newAngle.normalize }

/-- `setActiveView`. -/
def AppStore.setActiveView (s : AppStore) (view : ActiveView) : AppStore :=
{ s with activeView := view }

/-- `setSelectedFormula`. -/
def AppStore.setSelectedFormula (s : AppStore) (formula : Option String) :
    AppStore :=
{ s with selectedFormula := formula }

/-- `setDifficultyLevel`. -/
def AppStore.setDifficultyLevel (s : AppStore) (level : DifficultyLevel) :
    AppStore :=
{ s with difficultyLevel := level }

/-- `setFormulaViewMode`. -/
def AppStore.setFormulaViewMode (s : AppStore) (mode : FormulaViewMode) :
    AppStore :=
{ s with formulaViewMode := mode }

/-- `toggleFormula`. -/
def AppStore.toggleFormula (s : AppStore) (formulaId : String) : AppStore :=
if formulaId ∈ s.enabledFormulas then
  { s with enabledFormulas := s.enabledFormulas.erase formulaId }
else
  { s with enabledFormulas := insert formulaId s.enabledFormulas }

/-- `setFormulaEnabled`. -/
def AppStore.setFormulaEnabled (s : AppStore) (formulaId : String)
    (enabled : Bool) : AppStore :=
if enabled then
  { s with enabledFormulas := insert formulaId s.enabledFormulas }
else
  { s with enabledFormulas := s.enabledFormulas.erase formulaId }

/-- The named setter operations of the store, as an action alphabet. -/
inductive Action
| setAngle (a : Angle)
| setAngleUnit (u : AngleUnit)
| setActiveView (v : ActiveView)
| setSelectedFormula (f : Option String)
| setDifficultyLevel (l : DifficultyLevel)
| setFormulaViewMode (m : FormulaViewMode)
| toggleFormula (id : String)
| setFormulaEnabled (id : String) (enabled : Bool)

/-- Dispatch one store action. -/
noncomputable def step (s : AppStore) : Action → AppStore
| .setAngle a => s.setAngle a
| .setAngleUnit u => s.setAngleUnit u
| .setActiveView v => s.setActiveView v
| .setSelectedFormula f => s.setSelectedFormula f
| .setDifficultyLevel l => s.setDifficultyLevel l
| .setFormulaViewMode m => s.setFormulaViewMode m
| .toggleFormula i => s.toggleFormula i
| .setFormulaEnabled i e => s.setFormulaEnabled i e

/-- The store state after a sequence of setter operations, starting from
`initialState`. -/
noncomputable def applyAll (acts : List Action) : AppStore :=
acts.foldl step initialState

/-- The drag-handler `DragState` from `DragHandler.ts`: the pending
animation-frame callback is modelled together with the pointer event its
closure captured. -/
structure DragHandlerState (α : Type) where
  isDragging : Bool
  pending : Option α
  lastUpdateTime : ℚ
deriving DecidableEq, Repr

/-- `updateAngle` from `DragHandler.ts`: within the throttle window and with
no callback pending, schedule a deferred emission on the next animation
frame; otherwise emit the angle of the event now and record the time.
Pointer events are abstract payloads `α`; an emission is the payload whose
angle `onAngleChange` would receive. -/
def updateAngle {α : Type} (minFrameTime : ℚ) (s : DragHandlerState α)
    (e : α) (now : ℚ) : DragHandlerState α × List α :=
if now - s.lastUpdateTime < minFrameTime ∧ s.pending.isNone then
  ({ s with pending := some e }, [])
else
  ({ s with lastUpdateTime := now }, [e])

/-- The pointer/frame events a drag gesture is driven by.  `animationFrame`
is the host firing the pending `requestAnimationFrame` callback, which
clears the callback id and re-enters `updateAngle` with the captured
event. -/
inductive DragEvent (α : Type)
| pointerDown (e : α) (t : ℚ) (primaryButton : Bool)
| pointerMove (e : α) (t : ℚ)
| pointerUp (e : α) (t : ℚ)
| pointerCancel (e : α) (t : ℚ)
| animationFrame (t : ℚ)

/-- One step of the drag handler, mirroring `handlePointerDown`,
`handlePointerMove`, `handlePointerUp`, `handlePointerCancel` and the
`requestAnimationFrame` callback of `updateAngle`. -/
def handleEvent {α : Type} (minFrameTime : ℚ) (s : DragHandlerState α) :
    DragEvent α → DragHandlerState α × List α
| .pointerDown e t primaryButton =>
    if !primaryButton then (s, [])
    else updateAngle minFrameTime { s with isDragging := true, lastUpdateTime := t } e t
| .pointerMove e t =>
    if !s.isDragging then (s, []) else updateAngle minFrameTime s e t
| .pointerUp e t =>
    if !s.isDragging then (s, [])
    else updateAngle minFrameTime { s with isDragging := false, pending := none } e t
| .pointerCancel _ _ =>
    if !s.isDragging then (s, [])
    else ({ s with isDragging := false, pending := none }, [])
| .animationFrame t =>
    match s.pending with
    | none => (s, [])
    | some e => updateAngle minFrameTime { s with pending := none } e t

/-- Run the drag handler over an event sequence from its initial state,
collecting all emissions in order. -/
def runDrag {α : Type} (minFrameTime : ℚ) (events : List (DragEvent α)) :
    DragHandlerState α × List α :=
events.foldl
  (fun acc ev =>
    let r := handleEvent minFrameTime acc.1 ev
    (r.1, acc.2 ++ r.2))
  (⟨false, none, 0⟩, [])

/-- `MAX_TOLERANCE_DEG` from the slider handler. -/
def MAX_TOLERANCE_DEG : ℝ := 0.5

/-- `MAX_TOLERANCE_RAD` from the slider handler. -/
def MAX_TOLERANCE_RAD : ℝ := 0.01

/-- `sliderValueToAngle(value, unit)`: values at or near the slider maximum
collapse to the equivalent angle 0. -/
noncomputable def sliderValueToAngle (value : ℝ) (unit : AngleUnit) : Angle :=
match unit with
| .degrees =>
    if value ≥ 360 - MAX_TOLERANCE_DEG then ⟨0, .degrees⟩ else ⟨value, .degrees⟩
| .radians =>
    if value ≥ 2 * Real.pi - MAX_TOLERANCE_RAD then ⟨0, .radians⟩
    else ⟨value, .radians⟩

/-- `angleToSliderValue(angle, unit, wasAtMax)`: shows the maximum when the
angle is (near) zero and the slider was previously at the maximum. -/
noncomputable def angleToSliderValue (angle : Angle) (unit : AngleUnit)
    (wasAtMax : Bool) : ℝ :=
match unit with
| .degrees =>
    if |angle.toDegrees| < MAX_TOLERANCE_DEG ∧ wasAtMax then 360
    else min angle.toDegrees 360
| .radians =>
    if |angle.toRadians| < MAX_TOLERANCE_RAD ∧ wasAtMax then 2 * Real.pi
    else min angle.toRadians (2 * Real.pi)

/-- C1: for every finite angle, `normalize()` returns an equivalent angle
(same radian measure up to whole turns) whose magnitude lies in `[0, 2π)`
for radian angles and `[0°, 360°)` for degree angles, keeping the input's
unit; an input of exactly one full turn (2π rad or 360°) normalizes to
magnitude 0. -/
theorem C1_normalize_correct (a : Angle) :
    a.normalize.unit = a.unit ∧
    (0 ≤ a.normalize.value ∧ a.normalize.value < fullTurn a.unit) ∧
    (∃ k : ℤ, a.toRadians - a.normalize.toRadians = 2 * Real.pi * (k : ℝ)) ∧
    (Angle.mk (2 * Real.pi) .radians).normalize = Angle.mk 0 .radians ∧
    (Angle.mk 360 .degrees).normalize = Angle.mk 0 .degrees :=
  ⟨normalize_unit a, normalize_range a, normalize_toRadians_sub a,
   normalize_full_turn_radians, normalize_full_turn_degrees⟩

/-- C2: the evaluator caches `sin θ`/`cos θ` at construction; `tan` and
`sec` are `null` exactly when `|cos θ| < 1e-10` and otherwise equal
`sin θ / cos θ` and `1 / cos θ`; `cot` and `csc` are `null` exactly when
`|sin θ| < 1e-10` and otherwise equal `cos θ / sin θ` and `1 / sin θ`; in
particular at every `θ = π/2 + kπ` tan/sec are `null` and at every
`θ = kπ` cot/csc are `null`. -/
theorem C2_undefined_values (a : Angle) (k : ℤ) :
    ((TrigonometricValues.ofAngle a).tan =
      if |Real.cos a.toRadians| < ZERO_TOLERANCE then none
      else some (Real.sin a.toRadians / Real.cos a.toRadians)) ∧
    ((TrigonometricValues.ofAngle a).sec =
      if |Real.cos a.toRadians| < ZERO_TOLERANCE then none
      else some (1 / Real.cos a.toRadians)) ∧
    ((TrigonometricValues.ofAngle a).cot =
      if |Real.sin a.toRadians| < ZERO_TOLERANCE then none
      else some (Real.cos a.toRadians / Real.sin a.toRadians)) ∧
    ((TrigonometricValues.ofAngle a).csc =
      if |Real.sin a.toRadians| < ZERO_TOLERANCE then none
      else some (1 / Real.sin a.toRadians)) ∧
    ((TrigonometricValues.ofAngle a).tan = none ↔
      |Real.cos a.toRadians| < ZERO_TOLERANCE) ∧
    ((TrigonometricValues.ofAngle a).cot = none ↔
      |Real.sin a.toRadians| < ZERO_TOLERANCE) ∧
    (TrigonometricValues.ofAngle
      ⟨Real.pi / 2 + (k : ℝ) * Real.pi, .radians⟩).tan = none ∧
    (TrigonometricValues.ofAngle
      ⟨Real.pi / 2 + (k : ℝ) * Real.pi, .radians⟩).sec = none ∧
    (TrigonometricValues.ofAngle ⟨(k : ℝ) * Real.pi, .radians⟩).cot = none ∧
    (TrigonometricValues.ofAngle ⟨(k : ℝ) * Real.pi, .radians⟩).csc = none := by
  have hcos : Real.cos ((Angle.mk (Real.pi / 2 + (k : ℝ) * Real.pi)
      .radians).toRadians) = 0 := by
    show Real.cos (Real.pi / 2 + (k : ℝ) * Real.pi) = 0
    rw [Real.cos_add, Real.cos_pi_div_two, Real.sin_pi_div_two]
    have := Real.sin_int_mul_pi k
    simp only [zero_mul, one_mul]
    rw [this]
    ring
  have hsin : Real.sin ((Angle.mk ((k : ℝ) * Real.pi) .radians).toRadians)
      = 0 := by
    show Real.sin ((k : ℝ) * Real.pi) = 0
    exact Real.sin_int_mul_pi k
  have htol : (0:ℝ) < ZERO_TOLERANCE := by unfold ZERO_TOLERANCE; norm_num
  refine ⟨rfl, rfl, rfl, rfl, ?_, ?_, ?_, ?_, ?_, ?_⟩
  · unfold TrigonometricValues.tan TrigonometricValues.ofAngle
    by_cases h : |Real.cos a.toRadians| < ZERO_TOLERANCE <;> simp [h]
  · unfold TrigonometricValues.cot TrigonometricValues.ofAngle
    by_cases h : |Real.sin a.toRadians| < ZERO_TOLERANCE <;> simp [h]
  · unfold TrigonometricValues.tan TrigonometricValues.ofAngle
    simp only [hcos, abs_zero]
    rw [if_pos htol]
  · unfold TrigonometricValues.sec TrigonometricValues.ofAngle
    simp only [hcos, abs_zero]
    rw [if_pos htol]
  · unfold TrigonometricValues.cot TrigonometricValues.ofAngle
    simp only [hsin, abs_zero]
    rw [if_pos htol]
  · unfold TrigonometricValues.csc TrigonometricValues.ofAngle
    simp only [hsin, abs_zero]
    rw [if_pos htol]

/-- A stored angle is normalized: its magnitude is in `[0, full turn)` for
its own unit. -/
def storeInv (s : AppStore) : Prop :=
0 ≤ s.currentAngle.value ∧ s.currentAngle.value < fullTurn s.currentAngle.unit

theorem normalize_self_range (a : Angle) :
    0 ≤ a.normalize.value ∧ a.normalize.value < fullTurn a.normalize.unit := by
  rw [normalize_unit]
  exact normalize_range a

theorem storeInv_step (s : AppStore) (act : Action) (h : storeInv s) :
    storeInv (step s act) := by
  cases act with
  | setAngle a =>
      show storeInv (s.setAngle a)
      unfold AppStore.setAngle storeInv
      exact normalize_self_range a
  | setAngleUnit u =>
      show storeInv (s.setAngleUnit u)
      unfold AppStore.setAngleUnit
      by_cases hu : s.angleUnit = u
      · rw [if_pos hu]; exact h
      · rw [if_neg hu]
        unfold storeInv
        exact normalize_self_range _
  | setActiveView v => exact h
  | setSelectedFormula f => exact h
  | setDifficultyLevel l => exact h
  | setFormulaViewMode m => exact h
  | toggleFormula i =>
      show storeInv (s.toggleFormula i)
      unfold AppStore.toggleFormula
      by_cases hi : i ∈ s.enabledFormulas
      · rw [if_pos hi]; exact h
      · rw [if_neg hi]; exact h
  | setFormulaEnabled i e =>
      show storeInv (s.setFormulaEnabled i e)
      unfold AppStore.setFormulaEnabled
      by_cases he : e = true
      · rw [if_pos he]; exact h
      · rw [if_neg he]; exact h

theorem storeInv_foldl (s : AppStore) (acts : List Action) (h : storeInv s) :
    storeInv (acts.foldl step s) := by
  induction acts generalizing s with
  | nil => exact h
  | cons a t ih => exact ih (step s a) (storeInv_step s a h)

theorem storeInv_initial : storeInv initialState := by
  unfold storeInv initialState Angle.ZERO
  constructor
  · exact le_refl 0
  · show (0:ℝ) < fullTurn .radians
    unfold fullTurn
    positivity

/-- C3: the angle setter always stores `angle.normalize()`, so after any
sequence of store operations the stored angle's magnitude lies in
`[0, 2π)` (resp. `[0°, 360°)`); changing the display unit re-wraps the
stored radian measure in the new unit and re-normalizes, and setting the
unit already in effect leaves the state unchanged. -/
theorem C3_store_normalized (s : AppStore) (a : Angle) (u : AngleUnit)
    (acts : List Action) :
    (step s (.setAngle a)).currentAngle = a.normalize ∧
    (0 ≤ (applyAll acts).currentAngle.value ∧
      (applyAll acts).currentAngle.value <
        fullTurn (applyAll acts).currentAngle.unit) ∧
    (s.angleUnit = u → step s (.setAngleUnit u) = s) ∧
    (s.angleUnit ≠ u →
      (step s (.setAngleUnit u)).angleUnit = u ∧
      (step s (.setAngleUnit u)).currentAngle.unit = u ∧
      (∃ k : ℤ, s.currentAngle.toRadians -
        (step s (.setAngleUnit u)).currentAngle.toRadians =
          2 * Real.pi * (k : ℝ))) := by
  refine ⟨rfl, storeInv_foldl initialState acts storeInv_initial, ?_, ?_⟩
  · intro hu
    show s.setAngleUnit u = s
    unfold AppStore.setAngleUnit
    rw [if_pos hu]
  · intro hu
    have hstep : step s (.setAngleUnit u) = s.setAngleUnit u := rfl
    cases u with
    | radians =>
        have hcur : s.setAngleUnit .radians =
            { s with
                angleUnit := .radians
                currentAngle :=
                  (Angle.mk s.currentAngle.toRadians .radians).normalize } := by
          unfold AppStore.setAngleUnit
          rw [if_neg hu]
        rw [hstep, hcur]
        refine ⟨rfl, normalize_unit _, ?_⟩
        obtain ⟨k, hk⟩ := normalize_toRadians_sub
          ⟨s.currentAngle.toRadians, .radians⟩
        exact ⟨k, hk⟩
    | degrees =>
        have hcur : s.setAngleUnit .degrees =
            { s with
                angleUnit := .degrees
                currentAngle := (Angle.mk
                  (s.currentAngle.toRadians * (180 / Real.pi))
                  .degrees).normalize } := by
          unfold AppStore.setAngleUnit
          rw [if_neg hu]
        rw [hstep, hcur]
        refine ⟨rfl, normalize_unit _, ?_⟩
        obtain ⟨k, hk⟩ := normalize_toRadians_sub
          ⟨s.currentAngle.toRadians * (180 / Real.pi), .degrees⟩
        refine ⟨k, ?_⟩
        have hto : (Angle.mk (s.currentAngle.toRadians * (180 / Real.pi))
            .degrees).toRadians = s.currentAngle.toRadians := by
          show s.currentAngle.toRadians * (180 / Real.pi) *
            DEGREES_TO_RADIANS = s.currentAngle.toRadians
          unfold DEGREES_TO_RADIANS
          field_simp
        rw [hto] at hk
        exact hk

/-- Witness for C3 at a concrete state and unit. -/
theorem C3_store_normalized_witness :
    step initialState (.setAngleUnit .radians) = initialState :=
  (C3_store_normalized initialState Angle.ZERO .radians []).2.2.1 rfl

/-- C4 (failing input): with the default 60 FPS throttle (16.6 ms frame
time), a gesture of pointer-down at t = 0 and pointer-up at t = 5 emits
nothing at all — the final `updateAngle` of `handlePointerUp` falls into
the throttle branch and schedules a fresh deferred callback after the
gesture has ended (`isDragging = false`, `pending` set); when the host
fires that animation frame at t = 20 the orphaned callback emits the
angle.  This contradicts the claimed unconditional final emission on
pointer-up and the claimed absence of post-gesture deferred emissions. -/
theorem C4_pointer_up_orphan_callback :
    (runDrag (α := ℕ) (1000 / 60)
      [.pointerDown 0 0 true, .pointerUp 1 5]).2 = [] ∧
    (runDrag (α := ℕ) (1000 / 60)
      [.pointerDown 0 0 true, .pointerUp 1 5]).1.isDragging = false ∧
    (runDrag (α := ℕ) (1000 / 60)
      [.pointerDown 0 0 true, .pointerUp 1 5]).1.pending = some 1 ∧
    (runDrag (α := ℕ) (1000 / 60)
      [.pointerDown 0 0 true, .pointerUp 1 5, .animationFrame 20]).2 = [1] := by
  norm_num [runDrag, handleEvent, updateAngle]

theorem normalize_fromRadians_eq (x : ℝ) (h0 : 0 ≤ x) (h1 : x < 2 * Real.pi) :
    (Angle.fromRadians x).normalize = Angle.fromRadians x :=
  normalize_of_mem _ h0 (by simpa [fullTurn, Angle.fromRadians] using h1)

theorem arcsin_ok_mem (v : ℝ) (l : List Angle)
    (h : InverseTrigonometricValues.arcsin v = .ok l) :
    ∀ x ∈ l, 0 ≤ x.value ∧ x.value < 2 * Real.pi ∧ x.unit = .radians := by
  unfold InverseTrigonometricValues.arcsin at h
  by_cases hdom : v < -1 ∨ v > 1
  · rw [if_pos hdom] at h
    exact absurd h (by simp)
  · rw [if_neg hdom] at h
    simp only [Except.ok.injEq] at h
    subst h
    intro x hx
    simp only [List.mem_map] at hx
    obtain ⟨a, ha, rfl⟩ := hx
    have hunit : a.unit = AngleUnit.radians := by
      by_cases hsgn : 0 ≤ Real.arcsin v
      · by_cases hmid : 0 < Real.arcsin v ∧ Real.arcsin v < Real.pi / 2
        · simp only [if_pos hsgn, if_pos hmid, List.mem_cons, List.mem_singleton,
            List.not_mem_nil, or_false] at ha
          rcases ha with rfl | rfl <;> rfl
        · simp only [if_pos hsgn, if_neg hmid, List.mem_singleton] at ha
          subst ha; rfl
      · simp only [if_neg hsgn, List.mem_cons, List.mem_singleton,
          List.not_mem_nil, or_false] at ha
        rcases ha with rfl | rfl <;> rfl
    have hrange := normalize_range a
    rw [hunit] at hrange
    refine ⟨hrange.1, by simpa [fullTurn] using hrange.2, by rw [normalize_unit, hunit]⟩

/-- C5: `arcsin(v)` fails with a domain error iff `v` is outside `[-1, 1]`;
otherwise, for principal `p = asin v`, it returns `[p]` plus `[π - p]` when
`p ∈ (0, π/2)` if `p ≥ 0`, and `[2π + p, π - p]` if `p < 0`, with every
returned angle normalized into `[0, 2π)`. -/
theorem C5_arcsin_solutions (v : ℝ) :
    ((v < -1 ∨ 1 < v) →
      InverseTrigonometricValues.arcsin v =
        .error "arcsin domain error: value must be in [-1, 1]") ∧
    (-1 ≤ v → v ≤ 1 →
      InverseTrigonometricValues.arcsin v = .ok (
        if 0 ≤ Real.arcsin v then
          Angle.fromRadians (Real.arcsin v) ::
            (if 0 < Real.arcsin v ∧ Real.arcsin v < Real.pi / 2 then
              [Angle.fromRadians (Real.pi - Real.arcsin v)]
            else [])
        else
          [Angle.fromRadians (2 * Real.pi + Real.arcsin v),
           Angle.fromRadians (Real.pi - Real.arcsin v)])) ∧
    (∀ l, InverseTrigonometricValues.arcsin v = .ok l →
      ∀ x ∈ l, 0 ≤ x.value ∧ x.value < 2 * Real.pi ∧ x.unit = .radians) := by
  have hπ := Real.pi_pos
  have hp1 := Real.neg_pi_div_two_le_arcsin v
  have hp2 := Real.arcsin_le_pi_div_two v
  refine ⟨?_, ?_, arcsin_ok_mem v⟩
  · intro h
    unfold InverseTrigonometricValues.arcsin
    rw [if_pos h]
  · intro h1 h2
    have hdom : ¬(v < -1 ∨ v > 1) := not_or.2 ⟨not_lt.2 h1, not_lt.2 h2⟩
    unfold InverseTrigonometricValues.arcsin
    rw [if_neg hdom]
    simp only [Except.ok.injEq]
    by_cases hsgn : 0 ≤ Real.arcsin v
    · by_cases hmid : 0 < Real.arcsin v ∧ Real.arcsin v < Real.pi / 2
      · rw [if_pos hsgn, if_pos hmid]
        simp only [List.map_cons, List.map_nil]
        rw [normalize_fromRadians_eq _ hsgn (by linarith),
          normalize_fromRadians_eq _ (by linarith [hmid.2]) (by linarith [hmid.1])]
      · rw [if_pos hsgn, if_neg hmid]
        simp only [List.map_cons, List.map_nil]
        rw [normalize_fromRadians_eq _ hsgn (by linarith)]
    · rw [if_neg hsgn]
      push_neg at hsgn
      simp only [List.map_cons, List.map_nil]
      rw [normalize_fromRadians_eq _ (by linarith) (by linarith),
        normalize_fromRadians_eq _ (by linarith) (by linarith)]

/-- Witness for C5 at the concrete inputs v = 2 (domain error) and
v = 0 (single solution 0). -/
theorem C5_arcsin_solutions_witness :
    InverseTrigonometricValues.arcsin 2 =
      .error "arcsin domain error: value must be in [-1, 1]" ∧
    InverseTrigonometricValues.arcsin 0 = .ok [Angle.fromRadians 0] := by
  constructor
  · exact (C5_arcsin_solutions 2).1 (Or.inr (by norm_num))
  · have h := (C5_arcsin_solutions 0).2.1 (by norm_num) (by norm_num)
    rw [h]
    simp [Real.arcsin_zero]

theorem sliderValueToAngle_degrees (w : ℝ) :
    sliderValueToAngle w .degrees =
      if w ≥ 360 - MAX_TOLERANCE_DEG then Angle.mk 0 .degrees
      else Angle.mk w .degrees := rfl

theorem sliderValueToAngle_radians (w : ℝ) :
    sliderValueToAngle w .radians =
      if w ≥ 2 * Real.pi - MAX_TOLERANCE_RAD then Angle.mk 0 .radians
      else Angle.mk w .radians := rfl

theorem angleToSliderValue_degrees (a : Angle) (b : Bool) :
    angleToSliderValue a .degrees b =
      if |a.toDegrees| < MAX_TOLERANCE_DEG ∧ b then 360
      else min a.toDegrees 360 := rfl

/-- C8: `sliderValueToAngle(360, degrees)` yields the angle 0° (any slider
value within 0.5° of the 360° maximum, or within 0.01 rad of the 2π
maximum, maps to angle 0 in the corresponding unit);
`angleToSliderValue(Angle.ZERO, degrees, wasAtMax)` is exactly 360 when
`wasAtMax` and exactly 0 otherwise. -/
theorem C8_slider_max_equiv :
    sliderValueToAngle 360 .degrees = Angle.mk 0 .degrees ∧
    (sliderValueToAngle 360 .degrees).toDegrees = 0 ∧
    (∀ w : ℝ, |w - 360| ≤ MAX_TOLERANCE_DEG →
      sliderValueToAngle w .degrees = Angle.mk 0 .degrees) ∧
    (∀ w : ℝ, |w - 2 * Real.pi| ≤ MAX_TOLERANCE_RAD →
      sliderValueToAngle w .radians = Angle.mk 0 .radians) ∧
    angleToSliderValue Angle.ZERO .degrees true = 360 ∧
    angleToSliderValue Angle.ZERO .degrees false = 0 := by
  have h360 : sliderValueToAngle 360 .degrees = Angle.mk 0 .degrees := by
    rw [sliderValueToAngle_degrees,
      if_pos (by unfold MAX_TOLERANCE_DEG; norm_num)]
  have hz : Angle.ZERO.toDegrees = 0 := by
    show (0:ℝ) * RADIANS_TO_DEGREES = 0
    norm_num
  refine ⟨h360, ?_, ?_, ?_, ?_, ?_⟩
  · rw [h360]
    rfl
  · intro w hw
    rw [abs_le] at hw
    rw [sliderValueToAngle_degrees,
      if_pos (by unfold MAX_TOLERANCE_DEG at *; linarith [hw.1])]
  · intro w hw
    rw [abs_le] at hw
    rw [sliderValueToAngle_radians,
      if_pos (by unfold MAX_TOLERANCE_RAD at *; linarith [hw.1])]
  · rw [angleToSliderValue_degrees, if_pos]
    refine ⟨?_, rfl⟩
    rw [hz]
    unfold MAX_TOLERANCE_DEG
    norm_num
  · rw [angleToSliderValue_degrees, if_neg (by simp), hz]
    norm_num

/-- Witness for C8 at the concrete slider values 359.8° and 2π rad. -/
theorem C8_slider_max_equiv_witness :
    sliderValueToAngle 359.8 .degrees = Angle.mk 0 .degrees ∧
    sliderValueToAngle (2 * Real.pi) .radians = Angle.mk 0 .radians :=
  ⟨C8_slider_max_equiv.2.2.1 359.8 (by unfold MAX_TOLERANCE_DEG; norm_num [abs_le]),
   C8_slider_max_equiv.2.2.2.1 (2 * Real.pi)
     (by unfold MAX_TOLERANCE_RAD; norm_num)⟩

/-- C9: `arccot(v)` returns a single solution in `(0, π)`: exactly `π/2`
when `|v| < 1e-10` (special-cased, not computed by division),
`atan(1/v) ∈ (0, π/2)` when `v > 0`, and `atan(1/v) + π ∈ (π/2, π)` when
`v < 0`. -/
theorem C9_arccot_convention (v : ℝ) :
    (|v| < ZERO_TOLERANCE → InverseTrigonometricValues.arccot v = Angle.PI_OVER_2) ∧
    (ZERO_TOLERANCE ≤ v →
      InverseTrigonometricValues.arccot v =
        Angle.fromRadians (Real.arctan (1 / v)) ∧
      0 < Real.arctan (1 / v) ∧ Real.arctan (1 / v) < Real.pi / 2) ∧
    (v ≤ -ZERO_TOLERANCE →
      InverseTrigonometricValues.arccot v =
        Angle.fromRadians (Real.arctan (1 / v) + Real.pi) ∧
      Real.pi / 2 < Real.arctan (1 / v) + Real.pi ∧
      Real.arctan (1 / v) + Real.pi < Real.pi) ∧
    (0 < (InverseTrigonometricValues.arccot v).value ∧
      (InverseTrigonometricValues.arccot v).value < Real.pi ∧
      (InverseTrigonometricValues.arccot v).unit = .radians) := by
  have hπ := Real.pi_pos
  have htol : (0:ℝ) < ZERO_TOLERANCE := by unfold ZERO_TOLERANCE; norm_num
  have hpos : ∀ w : ℝ, ZERO_TOLERANCE ≤ w →
      InverseTrigonometricValues.arccot w =
        Angle.fromRadians (Real.arctan (1 / w)) ∧
      0 < Real.arctan (1 / w) ∧ Real.arctan (1 / w) < Real.pi / 2 := by
    intro w hw
    have hw0 : 0 < w := lt_of_lt_of_le htol hw
    have hinv : 0 < 1 / w := one_div_pos.2 hw0
    have hat0 : 0 < Real.arctan (1 / w) := by
      have := Real.arctan_strictMono hinv
      rwa [Real.arctan_zero] at this
    have hat2 := Real.arctan_lt_pi_div_two (1 / w)
    have habs : ¬|w| < ZERO_TOLERANCE := by
      rw [abs_of_pos hw0]; exact not_lt.2 hw
    refine ⟨?_, hat0, hat2⟩
    unfold InverseTrigonometricValues.arccot
    rw [if_neg habs, if_pos hw0]
    exact normalize_fromRadians_eq _ hat0.le (by linarith)
  have hneg : ∀ w : ℝ, w ≤ -ZERO_TOLERANCE →
      InverseTrigonometricValues.arccot w =
        Angle.fromRadians (Real.arctan (1 / w) + Real.pi) ∧
      Real.pi / 2 < Real.arctan (1 / w) + Real.pi ∧
      Real.arctan (1 / w) + Real.pi < Real.pi := by
    intro w hw
    have hw0 : w < 0 := lt_of_le_of_lt hw (by linarith)
    have hinv : 1 / w < 0 := div_neg_of_pos_of_neg one_pos hw0
    have hat0 : Real.arctan (1 / w) < 0 := by
      have := Real.arctan_strictMono hinv
      rwa [Real.arctan_zero] at this
    have hat2 := Real.neg_pi_div_two_lt_arctan (1 / w)
    have habs : ¬|w| < ZERO_TOLERANCE := by
      rw [abs_of_neg hw0]; apply not_lt.2; linarith
    refine ⟨?_, by linarith, by linarith⟩
    unfold InverseTrigonometricValues.arccot
    rw [if_neg habs, if_neg (by exact not_lt.2 hw0.le)]
    exact normalize_fromRadians_eq _ (by linarith) (by linarith)
  have hzero : |v| < ZERO_TOLERANCE →
      InverseTrigonometricValues.arccot v = Angle.PI_OVER_2 := by
    intro h
    unfold InverseTrigonometricValues.arccot
    rw [if_pos h]
  refine ⟨hzero, hpos v, hneg v, ?_⟩
  by_cases h1 : |v| < ZERO_TOLERANCE
  · rw [hzero h1]
    refine ⟨?_, ?_, rfl⟩
    · show (0:ℝ) < Real.pi / 2
      positivity
    · show Real.pi / 2 < Real.pi
      linarith
  · by_cases h2 : ZERO_TOLERANCE ≤ v
    · obtain ⟨heq, hlo, hhi⟩ := hpos v h2
      rw [heq]
      refine ⟨hlo, ?_, rfl⟩
      show Real.arctan (1 / v) < Real.pi
      linarith
    · have hv : v ≤ -ZERO_TOLERANCE := by
        rw [abs_lt, not_and_or] at h1
        push_neg at h1 h2
        rcases h1 with h | h
        · linarith
        · linarith
      obtain ⟨heq, hlo, hhi⟩ := hneg v hv
      rw [heq]
      refine ⟨?_, ?_, rfl⟩
      · show (0:ℝ) < Real.arctan (1 / v) + Real.pi
        linarith
      · show Real.arctan (1 / v) + Real.pi < Real.pi
        linarith

/-- Witness for C9 at the concrete inputs v = 0 and v = 1. -/
theorem C9_arccot_convention_witness :
    InverseTrigonometricValues.arccot 0 = Angle.PI_OVER_2 ∧
    InverseTrigonometricValues.arccot 1 = Angle.fromRadians (Real.arctan 1) := by
  constructor
  · exact (C9_arccot_convention 0).1 (by unfold ZERO_TOLERANCE; norm_num)
  · have h := ((C9_arccot_convention 1).2.1 (by unfold ZERO_TOLERANCE; norm_num)).1
    rw [show (1:ℝ)/1 = 1 by norm_num] at h
    exact h

/-- C10: at the domain boundary v = -1 the principal value of arcsin is
exactly -π/2, so `arcsin(-1)` returns the same angle 3π/2 listed twice
(`2π + p = π - p = 3π/2`); `arccsc(-1)` exhibits the same duplicated
result. -/
theorem C10_boundary_duplicates :
    InverseTrigonometricValues.arcsin (-1) =
      .ok [Angle.mk (3 * Real.pi / 2) .radians,
           Angle.mk (3 * Real.pi / 2) .radians] ∧
    InverseTrigonometricValues.arccsc (-1) =
      .ok [Angle.mk (3 * Real.pi / 2) .radians,
           Angle.mk (3 * Real.pi / 2) .radians] := by
  have hπ := Real.pi_pos
  have hmem : (Angle.fromRadians (3 * Real.pi / 2)).normalize =
      Angle.fromRadians (3 * Real.pi / 2) :=
    normalize_fromRadians_eq _ (by positivity) (by linarith)
  constructor
  · unfold InverseTrigonometricValues.arcsin
    rw [if_neg (by norm_num)]
    simp only [Except.ok.injEq]
    rw [Real.arcsin_neg_one]
    rw [if_neg (by push_neg; linarith)]
    have e1 : 2 * Real.pi + -(Real.pi / 2) = 3 * Real.pi / 2 := by ring
    have e2 : Real.pi - -(Real.pi / 2) = 3 * Real.pi / 2 := by ring
    rw [e1, e2]
    simp only [List.map_cons, List.map_nil, hmem]
    rfl
  · unfold InverseTrigonometricValues.arccsc
    rw [if_neg (by norm_num)]
    simp only [Except.ok.injEq]
    rw [show (1:ℝ) / (-1) = -1 by norm_num, Real.arcsin_neg_one]
    rw [if_neg (by push_neg; linarith)]
    have e1 : 2 * Real.pi + -(Real.pi / 2) = 3 * Real.pi / 2 := by ring
    have e2 : Real.pi - -(Real.pi / 2) = 3 * Real.pi / 2 := by ring
    rw [e1, e2]
    simp only [List.map_cons, List.map_nil, hmem]
    rfl

theorem jsTrim_of_all_ws (l : List Char) (h : ∀ c ∈ l, isWs c = true) :
    jsTrim l = [] := by
  unfold jsTrim
  have h1 : l.dropWhile isWs = [] := List.dropWhile_eq_nil_iff.2 h
  rw [h1]
  rfl

/-- C6: the parser acceptance table — "30" under degrees is Angle(30°);
"30deg" is Angle(30°) under either current unit; "π/6" is Angle(π/6 rad);
"π/0" errors with "divide by zero"; empty and whitespace-only input error
with "empty" (before any grammar matching); "abc" errors with "Invalid
angle format"; and for every input exactly one of angle and error is
populated. -/
theorem C6_parser_table :
    parseAngleInput "30" .degrees =
      ⟨some ⟨(30:ℝ), .degrees⟩, none⟩ ∧
    (∀ u, parseAngleInput "30deg" u = ⟨some ⟨(30:ℝ), .degrees⟩, none⟩) ∧
    (∀ u, parseAngleInput "π/6" u = ⟨some ⟨Real.pi / 6, .radians⟩, none⟩) ∧
    (∀ u, ∃ e, parseAngleInput "π/0" u = ⟨none, some e⟩ ∧
      "divide by zero".data <:+: e.data) ∧
    (∀ u, ∃ e, parseAngleInput "" u = ⟨none, some e⟩ ∧
      "empty".data <:+: e.data) ∧
    (∀ (s : String) (u : AngleUnit), (∀ c ∈ s.data, isWs c = true) →
      ∃ e, parseAngleInput s u = ⟨none, some e⟩ ∧
        "empty".data <:+: e.data) ∧
    (∀ u, ∃ e, parseAngleInput "abc" u = ⟨none, some e⟩ ∧
      "Invalid angle format".data <:+: e.data) ∧
    (∀ (input : String) (u : AngleUnit),
      (parseAngleInput input u).angle.isNone =
        (parseAngleInput input u).error.isSome) := by
  have hws : ∀ (s : String) (u : AngleUnit), (∀ c ∈ s.data, isWs c = true) →
      parseAngleInput s u = ⟨none, some "Angle input cannot be empty"⟩ := by
    intro s u h
    have hc : parseAngleCore s = .emptyInput := by
      unfold parseAngleCore
      rw [jsTrim_of_all_ws s.data h]
      rfl
    unfold parseAngleInput
    rw [hc]
  refine ⟨?_, ?_, ?_, ?_, ?_, ?_, ?_, ?_⟩
  · have hc : parseAngleCore "30" = .plainNumber ⟨false, 30, 0, 0⟩ := by decide
    unfold parseAngleInput
    rw [hc]
    norm_num [DecLit.toReal]
  · intro u
    have hc : parseAngleCore "30deg" = .withUnit ⟨false, 30, 0, 0⟩ .degrees := by
      decide
    unfold parseAngleInput
    rw [hc]
    norm_num [DecLit.toReal]
  · intro u
    have hc : parseAngleCore "π/6" = .piFraction ⟨false, 6, 0, 0⟩ := by decide
    unfold parseAngleInput
    rw [hc]
    norm_num [DecLit.toReal]
  · intro u
    have hc : parseAngleCore "π/0" = .divideByZero := by decide
    refine ⟨"Cannot divide by zero", ?_, ?_⟩
    · unfold parseAngleInput
      rw [hc]
    · decide
  · intro u
    have hc : parseAngleCore "" = .emptyInput := by decide
    refine ⟨"Angle input cannot be empty", ?_, ?_⟩
    · unfold parseAngleInput
      rw [hc]
    · decide
  · intro s u h
    exact ⟨"Angle input cannot be empty", hws s u h, by decide⟩
  · intro u
    have hc : parseAngleCore "abc" = .invalidFormat := by decide
    refine ⟨"Invalid angle format: \"abc\". Expected formats: \"30\", \"30deg\", \"π/6\", \"1.2rad\"", ?_, ?_⟩
    · unfold parseAngleInput
      rw [hc]
      rfl
    · decide
  · intro input u
    unfold parseAngleInput
    cases h : parseAngleCore input <;> rfl

/-- Witness for C6: the whitespace-only input " " under radians. -/
theorem C6_parser_table_witness :
    ∃ e, parseAngleInput " " .radians = ⟨none, some e⟩ ∧
      "empty".data <:+: e.data :=
  C6_parser_table.2.2.2.2.2.1 " " .radians (by decide)

theorem toRadians_fromRadians (x : ℝ) : (Angle.fromRadians x).toRadians = x := rfl

theorem tan_eq_some_imp (a : Angle) (x : ℝ)
    (h : (TrigonometricValues.ofAngle a).tan = some x) :
    x = Real.sin a.toRadians / Real.cos a.toRadians := by
  unfold TrigonometricValues.tan TrigonometricValues.ofAngle at h
  by_cases hc : |Real.cos a.toRadians| < ZERO_TOLERANCE
  · rw [if_pos hc] at h
    exact absurd h (by simp)
  · rw [if_neg hc] at h
    simp only [Option.some.injEq] at h
    exact h.symm

theorem cot_eq_some_imp (a : Angle) (x : ℝ)
    (h : (TrigonometricValues.ofAngle a).cot = some x) :
    x = Real.cos a.toRadians / Real.sin a.toRadians := by
  unfold TrigonometricValues.cot TrigonometricValues.ofAngle at h
  by_cases hc : |Real.sin a.toRadians| < ZERO_TOLERANCE
  · rw [if_pos hc] at h
    exact absurd h (by simp)
  · rw [if_neg hc] at h
    simp only [Option.some.injEq] at h
    exact h.symm

theorem sec_eq_some_imp (a : Angle) (x : ℝ)
    (h : (TrigonometricValues.ofAngle a).sec = some x) :
    x = 1 / Real.cos a.toRadians := by
  unfold TrigonometricValues.sec TrigonometricValues.ofAngle at h
  by_cases hc : |Real.cos a.toRadians| < ZERO_TOLERANCE
  · rw [if_pos hc] at h
    exact absurd h (by simp)
  · rw [if_neg hc] at h
    simp only [Option.some.injEq] at h
    exact h.symm

theorem csc_eq_some_imp (a : Angle) (x : ℝ)
    (h : (TrigonometricValues.ofAngle a).csc = some x) :
    x = 1 / Real.sin a.toRadians := by
  unfold TrigonometricValues.csc TrigonometricValues.ofAngle at h
  by_cases hc : |Real.sin a.toRadians| < ZERO_TOLERANCE
  · rw [if_pos hc] at h
    exact absurd h (by simp)
  · rw [if_neg hc] at h
    simp only [Option.some.injEq] at h
    exact h.symm

theorem sin_sols_eq (w : ℝ) (h1 : -1 ≤ w) (h2 : w ≤ 1) (a : Angle)
    (ha : a ∈ ((if 0 ≤ Real.arcsin w then
        Angle.fromRadians (Real.arcsin w) ::
          (if 0 < Real.arcsin w ∧ Real.arcsin w < Real.pi / 2 then
            [Angle.fromRadians (Real.pi - Real.arcsin w)]
          else [])
      else
        [Angle.fromRadians (2 * Real.pi + Real.arcsin w),
         Angle.fromRadians (Real.pi - Real.arcsin w)]).map Angle.normalize)) :
    Real.sin a.toRadians = w := by
  simp only [List.mem_map] at ha
  obtain ⟨b, hb, rfl⟩ := ha
  rw [sin_normalize]
  by_cases hsgn : 0 ≤ Real.arcsin w
  · rw [if_pos hsgn] at hb
    by_cases hmid : 0 < Real.arcsin w ∧ Real.arcsin w < Real.pi / 2
    · rw [if_pos hmid] at hb
      simp only [List.mem_cons, List.mem_singleton, List.not_mem_nil,
        or_false] at hb
      rcases hb with rfl | rfl
      · rw [toRadians_fromRadians]
        exact Real.sin_arcsin h1 h2
      · rw [toRadians_fromRadians, Real.sin_pi_sub]
        exact Real.sin_arcsin h1 h2
    · rw [if_neg hmid] at hb
      simp only [List.mem_cons, List.not_mem_nil, or_false] at hb
      subst hb
      rw [toRadians_fromRadians]
      exact Real.sin_arcsin h1 h2
  · rw [if_neg hsgn] at hb
    simp only [List.mem_cons, List.mem_singleton, List.not_mem_nil,
      or_false] at hb
    rcases hb with rfl | rfl
    · rw [toRadians_fromRadians,
        show 2 * Real.pi + Real.arcsin w = Real.arcsin w + 2 * Real.pi by ring,
        Real.sin_add_two_pi]
      exact Real.sin_arcsin h1 h2
    · rw [toRadians_fromRadians, Real.sin_pi_sub]
      exact Real.sin_arcsin h1 h2

theorem cos_sols_eq (w : ℝ) (h1 : -1 ≤ w) (h2 : w ≤ 1) (a : Angle)
    (ha : a ∈ ((Angle.fromRadians (Real.arccos w) ::
        (if 0 < Real.arccos w ∧ Real.arccos w < Real.pi then
          [Angle.fromRadians (2 * Real.pi - Real.arccos w)]
        else [])).map Angle.normalize)) :
    Real.cos a.toRadians = w := by
  simp only [List.mem_map] at ha
  obtain ⟨b, hb, rfl⟩ := ha
  rw [cos_normalize]
  by_cases hmid : 0 < Real.arccos w ∧ Real.arccos w < Real.pi
  · rw [if_pos hmid] at hb
    simp only [List.mem_cons, List.mem_singleton, List.not_mem_nil,
      or_false] at hb
    rcases hb with rfl | rfl
    · rw [toRadians_fromRadians]
      exact Real.cos_arccos h1 h2
    · rw [toRadians_fromRadians,
        show 2 * Real.pi - Real.arccos w = -Real.arccos w + 2 * Real.pi by ring,
        Real.cos_add_two_pi, Real.cos_neg]
      exact Real.cos_arccos h1 h2
  · rw [if_neg hmid] at hb
    simp only [List.mem_cons, List.not_mem_nil, or_false] at hb
    subst hb
    rw [toRadians_fromRadians]
    exact Real.cos_arccos h1 h2

theorem arcsin_forward (v : ℝ) (l : List Angle)
    (h : InverseTrigonometricValues.arcsin v = .ok l) :
    ∀ a ∈ l, Real.sin a.toRadians = v := by
  unfold InverseTrigonometricValues.arcsin at h
  by_cases hdom : v < -1 ∨ v > 1
  · rw [if_pos hdom] at h
    exact absurd h (by simp)
  · have h1 : -1 ≤ v := not_lt.1 (not_or.1 hdom).1
    have h2 : v ≤ 1 := not_lt.1 (not_or.1 hdom).2
    rw [if_neg hdom] at h
    simp only [Except.ok.injEq] at h
    subst h
    exact fun a ha => sin_sols_eq v h1 h2 a ha

theorem arccos_forward (v : ℝ) (l : List Angle)
    (h : InverseTrigonometricValues.arccos v = .ok l) :
    ∀ a ∈ l, Real.cos a.toRadians = v := by
  unfold InverseTrigonometricValues.arccos at h
  by_cases hdom : v < -1 ∨ v > 1
  · rw [if_pos hdom] at h
    exact absurd h (by simp)
  · have h1 : -1 ≤ v := not_lt.1 (not_or.1 hdom).1
    have h2 : v ≤ 1 := not_lt.1 (not_or.1 hdom).2
    rw [if_neg hdom] at h
    simp only [Except.ok.injEq] at h
    subst h
    exact fun a ha => cos_sols_eq v h1 h2 a ha

theorem inv_abs_le_one (v : ℝ) (hdom : ¬(v > -1 ∧ v < 1)) :
    -1 ≤ 1 / v ∧ 1 / v ≤ 1 := by
  have hv1 : 1 ≤ |v| := by
    rw [not_and_or] at hdom
    rcases hdom with h | h
    · push_neg at h
      exact le_abs.2 (Or.inr (by linarith))
    · push_neg at h
      exact le_abs.2 (Or.inl h)
  have habs : |1 / v| ≤ 1 := by
    rw [abs_div, abs_one]
    exact div_le_one_of_le₀ hv1 (by linarith)
  exact abs_le.1 habs

theorem arccsc_forward (v : ℝ) (l : List Angle)
    (h : InverseTrigonometricValues.arccsc v = .ok l) :
    ∀ a ∈ l, Real.sin a.toRadians = 1 / v := by
  unfold InverseTrigonometricValues.arccsc at h
  by_cases hdom : v > -1 ∧ v < 1
  · rw [if_pos hdom] at h
    exact absurd h (by simp)
  · obtain ⟨h1, h2⟩ := inv_abs_le_one v hdom
    rw [if_neg hdom] at h
    simp only [Except.ok.injEq] at h
    subst h
    exact fun a ha => sin_sols_eq (1 / v) h1 h2 a ha

theorem arcsec_forward (v : ℝ) (l : List Angle)
    (h : InverseTrigonometricValues.arcsec v = .ok l) :
    ∀ a ∈ l, Real.cos a.toRadians = 1 / v := by
  unfold InverseTrigonometricValues.arcsec at h
  by_cases hdom : v > -1 ∧ v < 1
  · rw [if_pos hdom] at h
    exact absurd h (by simp)
  · obtain ⟨h1, h2⟩ := inv_abs_le_one v hdom
    rw [if_neg hdom] at h
    simp only [Except.ok.injEq] at h
    subst h
    exact fun a ha => cos_sols_eq (1 / v) h1 h2 a ha

/-- C7 (counterexample): at v = 10^11 the single solution of `arctan` is so
close to π/2 that the forward evaluator's `tan` is the "undefined" signal
(`cos(atan 10^11) = 1/sqrt(1+10^22) < 1e-10`), so the forward function does
not reproduce v at all — the round-trip claim fails for every tolerance. -/
theorem C7_roundtrip_counterexample :
    (TrigonometricValues.ofAngle
      (InverseTrigonometricValues.arctan ((10:ℝ) ^ 11))).tan = none := by
  have hπ := Real.pi_pos
  set A := Real.arctan ((10:ℝ) ^ 11) with hA
  have hat0 : 0 < A := by
    rw [hA]
    have := Real.arctan_strictMono (show (0:ℝ) < 10 ^ 11 by norm_num)
    rwa [Real.arctan_zero] at this
  have hat2 : A < Real.pi / 2 := Real.arctan_lt_pi_div_two _
  have hnorm : InverseTrigonometricValues.arctan ((10:ℝ) ^ 11) =
      Angle.fromRadians A := by
    unfold InverseTrigonometricValues.arctan
    exact normalize_fromRadians_eq _ hat0.le (by linarith)
  rw [hnorm]
  set S := Real.sqrt (1 + ((10:ℝ) ^ 11) ^ 2) with hS
  have hSpos : 0 < S := by
    rw [hS]
    positivity
  have hcos : Real.cos ((Angle.fromRadians A).toRadians) = 1 / S := by
    rw [toRadians_fromRadians, hA, hS]
    exact Real.cos_arctan _
  have hsq : ((10:ℝ) ^ 10) < S := by
    rw [hS, Real.lt_sqrt (by positivity)]
    norm_num
  have hbound : |Real.cos ((Angle.fromRadians A).toRadians)| <
      ZERO_TOLERANCE := by
    rw [hcos, abs_of_pos (by positivity)]
    unfold ZERO_TOLERANCE
    rw [div_lt_iff₀ hSpos]
    nlinarith [hsq]
  unfold TrigonometricValues.tan TrigonometricValues.ofAngle
  rw [if_pos hbound]

/-- C7 (amended): for every value v in the relevant domain and every
solution angle returned by the six inverse functions, whenever the
corresponding forward trigonometric evaluator is defined at that solution
(sin and cos always; tan/cot/sec/csc when they return a value rather than
the "undefined" signal), it reproduces v within tolerance 0.01. -/
theorem C7_roundtrip_amended (v : ℝ) :
    (∀ l, InverseTrigonometricValues.arcsin v = .ok l →
      ∀ a ∈ l, |(TrigonometricValues.ofAngle a).sin - v| ≤ 0.01) ∧
    (∀ l, InverseTrigonometricValues.arccos v = .ok l →
      ∀ a ∈ l, |(TrigonometricValues.ofAngle a).cos - v| ≤ 0.01) ∧
    (∀ x, (TrigonometricValues.ofAngle
        (InverseTrigonometricValues.arctan v)).tan = some x →
      |x - v| ≤ 0.01) ∧
    (∀ l, InverseTrigonometricValues.arcsec v = .ok l →
      ∀ a ∈ l, ∀ x, (TrigonometricValues.ofAngle a).sec = some x →
        |x - v| ≤ 0.01) ∧
    (∀ l, InverseTrigonometricValues.arccsc v = .ok l →
      ∀ a ∈ l, ∀ x, (TrigonometricValues.ofAngle a).csc = some x →
        |x - v| ≤ 0.01) ∧
    (∀ x, (TrigonometricValues.ofAngle
        (InverseTrigonometricValues.arccot v)).cot = some x →
      |x - v| ≤ 0.01) := by
  have htol : (0:ℝ) < ZERO_TOLERANCE := by unfold ZERO_TOLERANCE; norm_num
  refine ⟨?_, ?_, ?_, ?_, ?_, ?_⟩
  · intro l hl a ha
    have hs := arcsin_forward v l hl a ha
    show |Real.sin a.toRadians - v| ≤ 0.01
    rw [hs]
    norm_num
  · intro l hl a ha
    have hs := arccos_forward v l hl a ha
    show |Real.cos a.toRadians - v| ≤ 0.01
    rw [hs]
    norm_num
  · intro x hx
    have hxeq := tan_eq_some_imp _ x hx
    unfold InverseTrigonometricValues.arctan at hxeq
    rw [sin_normalize, cos_normalize, toRadians_fromRadians] at hxeq
    rw [← Real.tan_eq_sin_div_cos, Real.tan_arctan] at hxeq
    rw [hxeq]
    norm_num
  · intro l hl a ha x hx
    have hs := arcsec_forward v l hl a ha
    have hxeq := sec_eq_some_imp _ x hx
    rw [hs, one_div_one_div] at hxeq
    rw [hxeq]
    norm_num
  · intro l hl a ha x hx
    have hs := arccsc_forward v l hl a ha
    have hxeq := csc_eq_some_imp _ x hx
    rw [hs, one_div_one_div] at hxeq
    rw [hxeq]
    norm_num
  · intro x hx
    by_cases hz : |v| < ZERO_TOLERANCE
    · have harc : InverseTrigonometricValues.arccot v = Angle.PI_OVER_2 := by
        unfold InverseTrigonometricValues.arccot
        rw [if_pos hz]
      rw [harc] at hx
      have hxeq := cot_eq_some_imp _ x hx
      have hrad : (Angle.PI_OVER_2).toRadians = Real.pi / 2 := rfl
      rw [hrad, Real.cos_pi_div_two, Real.sin_pi_div_two] at hxeq
      norm_num at hxeq
      rw [hxeq]
      have habs : |(0:ℝ) - v| = |v| := by rw [zero_sub, abs_neg]
      rw [habs]
      unfold ZERO_TOLERANCE at hz
      rw [abs_lt] at hz
      rw [abs_le]
      constructor <;> linarith [hz.1, hz.2]
    · have hcosne : Real.cos (Real.arctan (1 / v)) ≠ 0 :=
        (Real.cos_arctan_pos (1 / v)).ne'
      have htaneq : Real.sin (Real.arctan (1 / v)) =
          1 / v * Real.cos (Real.arctan (1 / v)) := by
        have h := Real.tan_arctan (1 / v)
        rw [Real.tan_eq_sin_div_cos] at h
        rwa [div_eq_iff hcosne] at h
      have hratio : Real.cos (Real.arctan (1 / v)) /
          Real.sin (Real.arctan (1 / v)) = v := by
        rw [htaneq, mul_comm, div_mul_eq_div_div, div_self hcosne,
          one_div_one_div]
      by_cases hv : v > 0
      · have harc : InverseTrigonometricValues.arccot v =
            (Angle.fromRadians (Real.arctan (1 / v))).normalize := by
          unfold InverseTrigonometricValues.arccot
          rw [if_neg hz, if_pos hv]
        rw [harc] at hx
        have hxeq := cot_eq_some_imp _ x hx
        rw [sin_normalize, cos_normalize, toRadians_fromRadians] at hxeq
        rw [hxeq, hratio]
        norm_num
      · have harc : InverseTrigonometricValues.arccot v =
            (Angle.fromRadians (Real.arctan (1 / v) + Real.pi)).normalize := by
          unfold InverseTrigonometricValues.arccot
          rw [if_neg hz, if_neg hv]
        rw [harc] at hx
        have hxeq := cot_eq_some_imp _ x hx
        rw [sin_normalize, cos_normalize, toRadians_fromRadians,
          Real.sin_add_pi, Real.cos_add_pi, neg_div_neg_eq] at hxeq
        rw [hxeq, hratio]
        norm_num

/-- Witness for C7 (amended): the arctan round-trip at v = 0. -/
theorem C7_roundtrip_amended_witness :
    ∃ x : ℝ, (TrigonometricValues.ofAngle
      (InverseTrigonometricValues.arctan 0)).tan = some x ∧ |x - 0| ≤ 0.01 := by
  have h0 : InverseTrigonometricValues.arctan 0 = Angle.fromRadians 0 := by
    unfold InverseTrigonometricValues.arctan
    rw [Real.arctan_zero]
    exact normalize_fromRadians_eq 0 le_rfl (by positivity)
  have htan : (TrigonometricValues.ofAngle
      (InverseTrigonometricValues.arctan 0)).tan = some 0 := by
    rw [h0]
    unfold TrigonometricValues.tan TrigonometricValues.ofAngle
    rw [toRadians_fromRadians, if_neg]
    · rw [Real.sin_zero, Real.cos_zero]
      norm_num
    · rw [Real.cos_zero]
      unfold ZERO_TOLERANCE
      norm_num
  exact ⟨0, htan, (C7_roundtrip_amended 0).2.2.1 0 htan⟩

end TrigCircle
